import Mathlib

/-!
Shallow embedding of the tududi frontend components
(`Projects.tsx` with `Projects` and `ProjectDetails`, `NewTask.tsx`,
`ProjectModal`) and proofs about the behaviour the specification claims.

JavaScript strings are modelled as Lean `String`, JS numbers holding ids
and task counts as `Nat` (they are small non-negative integers), values
that may be `undefined` as `Option`, and the exact real arithmetic of
`Math.round((done / totalTasks) * 100)` over `ℚ`.  Asynchronous backend
calls are modelled by passing the call outcome in as an explicit
parameter that is only consulted on the code paths that actually await
the call.
-/

namespace Tududi

/-! ## JavaScript string primitives -/

/-- `s.toUpperCase()` on the character level (the sources only feed it
project names). -/
def jsToUpper (s : String) : String := ⟨s.data.map Char.toUpper⟩

/-- `s.toLowerCase()` on the character level. -/
def jsToLower (s : String) : String := ⟨s.data.map Char.toLower⟩

/-- The whitespace characters `trim` strips (the ASCII ones; the sources
only trim names typed into text inputs). -/
def jsWhitespace (c : Char) : Bool :=
  c = ' ' || c = '\t' || c = '\n' || c = '\r'

/-- `s.trim()`: strip whitespace from both ends. -/
def jsTrim (s : String) : String :=
  ⟨((s.data.dropWhile jsWhitespace).reverse.dropWhile jsWhitespace).reverse⟩

/-- `s.split(" ")` on the character list: split at every single space. -/
def splitSpace : List Char → List (List Char)
  | [] => [[]]
  | c :: t =>
    if c = ' ' then [] :: splitSpace t
    else
      match splitSpace t with
      | [] => [[c]]
      | w :: ws => (c :: w) :: ws

/-- `s.includes(pat)` on the character list: `pat` occurs at the current
position or in the tail. -/
def listIncludes (pat : List Char) : List Char → Bool
  | [] => pat.isPrefixOf []
  | c :: t => pat.isPrefixOf (c :: t) || listIncludes pat t

/-- `s.includes(pat)` for strings. -/
def strIncludes (s pat : String) : Bool := listIncludes pat.data s.data

/-- The substring property the spec's words describe, independent of the
search procedure: `pat` occurs contiguously inside `s`. -/
def IsSubstring (s pat : String) : Prop :=
  ∃ l r : List Char, s.data = l ++ pat.data ++ r

/-! ## Data model (spec section 3, `entities/Project` and `entities/Task`)

The embedded `area`/`tasks` references of a project are never read by the
functions the claims are about, so the record keeps the scalar fields. -/

structure Project where
  id : Option Nat
  name : String
  description : Option String
  area_id : Option Nat
  active : Bool
  pin_to_sidebar : Bool
deriving DecidableEq, Repr

structure Task where
  id : Option Nat
  name : String
  status : String
deriving DecidableEq, Repr

/-! ## `getProjectInitials` (Projects.tsx lines 14-23) -/

/-- `name.trim().split(" ").filter((word) => word.length > 0)`. -/
def projectWords (name : String) : List (List Char) :=
  (splitSpace (jsTrim name).data).filter (fun w => w.length > 0)

/-- Projects.tsx `getProjectInitials`: one word returns the whole original
name uppercased, otherwise the uppercased first characters are joined
(`word[0].toUpperCase()` is `(w.take 1).map Char.toUpper` here). -/
def getProjectInitials (name : String) : String :=
  let words := projectWords name
  if words.length = 1 then jsToUpper name
  else ⟨(words.map (fun w => (w.take 1).map Char.toUpper)).flatten⟩

/-! ## `filteredProjects` (Projects.tsx lines 120-122) -/

/-- Projects.tsx `filteredProjects`: keep the projects whose lowercased
name contains the lowercased query. -/
def filteredProjects (projects : List Project) (searchQuery : String) :
    List Project :=
  projects.filter (fun p => strIncludes (jsToLower p.name) (jsToLower searchQuery))

/-! ## `getCompletionPercentage` (Projects.tsx lines 56-67) -/

/-- One entry of the `taskStatusCounts` record: how many tasks of the
project are in each status. -/
structure TaskStatusCounts where
  done : Nat
  not_started : Nat
  in_progress : Nat
deriving DecidableEq, Repr

/-- `Math.round`: round half toward positive infinity, which on every
rational is `⌊q + 1/2⌋`. -/
def mathRound (q : ℚ) : ℤ := ⌊q + 1 / 2⌋

/-- Projects.tsx `getCompletionPercentage`.  `taskStatusCounts` may have
no entry for an id, in which case `|| {}` makes every count read as 0 and
the total is 0.  The guard `if (!projectId) return 0` fires both for
`undefined` and for the number 0, because `!0` is true in JavaScript. -/
def getCompletionPercentage (taskStatusCounts : Nat → Option TaskStatusCounts)
    (projectId : Option Nat) : ℤ :=
  match projectId with
  | none => 0
  | some 0 => 0
  | some pid =>
    let taskStatus := (taskStatusCounts pid).getD ⟨0, 0, 0⟩
    let totalTasks :=
      taskStatus.done + taskStatus.not_started + taskStatus.in_progress
    if totalTasks = 0 then 0
    else mathRound ((taskStatus.done : ℚ) / (totalTasks : ℚ) * 100)

/-! ## `handleSaveProject` (Projects.tsx lines 69-77) -/

/-- The single backend call `handleSaveProject` performs. -/
inductive SaveOp where
  | updateProject (id : Nat) (p : Project)
  | createProject (p : Project)
deriving DecidableEq, Repr

structure SaveProjectResult where
  op : SaveOp
  modalClosed : Bool
  mutateCalled : Bool
deriving DecidableEq, Repr

/-- Projects.tsx `handleSaveProject`: `if (project.id)` takes the update
branch only when the id is a truthy number, so an absent id and the id 0
both create.  Closing the modal and refetching run after the awaited
call, hence only when it resolved (`resolves = true`); a rejection
propagates out of the handler before either happens. -/
def handleSaveProject (project : Project) (resolves : Bool) :
    SaveProjectResult :=
  let op := match project.id with
    | some (n + 1) => SaveOp.updateProject (n + 1) project
    | _ => SaveOp.createProject project
  if resolves then ⟨op, true, true⟩ else ⟨op, false, false⟩

/-! ## `ProjectDetails.handleTaskCreate` (Projects.tsx lines 403-434) -/

/-- Outcome of the awaited `fetch` of `POST /api/task`: an ok response
carrying the created task, a non-ok response carrying its body's `error`
field, or a thrown network error. -/
inductive TaskFetchOutcome where
  | ok (newTask : Task)
  | errResp (error : Option String)
  | networkFailure
deriving DecidableEq, Repr

/-- What a run of `handleTaskCreate` did: the body of the issued request
(if any) — the task data together with the `project_id` added to it — and
the resulting local tasks list. -/
structure TaskCreateResult (α : Type) where
  request : Option (α × Nat)
  tasks : List Task
deriving DecidableEq, Repr

/-- ProjectDetails `handleTaskCreate`: the guard `!project?.id` returns
early when there is no project, the project has no id, or the id is 0
(`!0` is true); otherwise the POST body `{...taskData, project_id}` is
sent and only an ok response appends the returned task to the list. -/
def handleTaskCreate {α : Type} (project : Option Project) (tasks : List Task)
    (taskData : α) (response : TaskFetchOutcome) : TaskCreateResult α :=
  match project.bind Project.id with
  | none => ⟨none, tasks⟩
  | some 0 => ⟨none, tasks⟩
  | some pid =>
    match response with
    | .ok newTask => ⟨some (taskData, pid), tasks ++ [newTask]⟩
    | _ => ⟨some (taskData, pid), tasks⟩

/-! ## `NewTask.handleKeyDown` (NewTask.tsx lines 16-27) -/

inductive Toast where
  | success (msg : String)
  | error (msg : String)
deriving DecidableEq, Repr

/-- What a run of `handleKeyDown` did: the argument `onTaskCreate` was
invoked with (if it was), the task-name input state afterwards, and the
toast shown (if any). -/
structure KeyDownResult where
  createCall : Option String
  taskName : String
  toast : Option Toast
deriving DecidableEq, Repr

/-- NewTask `handleKeyDown`: on Enter with a non-empty trimmed name the
callback gets the trimmed name; when the awaited call succeeds the input
is cleared and the success toast shown, when it rejects the input keeps
its value and the error toast is shown; any other key, or a
whitespace-only name, does nothing. -/
def handleKeyDown (key : String) (taskName : String) (createSucceeds : Bool) :
    KeyDownResult :=
  if key = "Enter" ∧ jsTrim taskName ≠ "" then
    if createSucceeds then
      ⟨some (jsTrim taskName), "", some (.success "Task created successfully!")⟩
    else
      ⟨some (jsTrim taskName), taskName, some (.error "Failed to create task.")⟩
  else ⟨none, taskName, none⟩

/-! ## `ProjectDetails.fetchProject` (Projects.tsx lines 379-401) -/

/-- The JSON body of an ok `GET /api/project/:id` response: the project
with its (possibly absent) embedded tasks. -/
structure ProjectPayload where
  project : Project
  tasks : Option (List Task)
deriving DecidableEq, Repr

/-- Outcome of the awaited fetch: ok response, non-ok response carrying
its body's `error` field, or a thrown error with its message. -/
inductive ProjectFetchOutcome where
  | ok (data : ProjectPayload)
  | errResp (error : Option String)
  | throwErr (msg : String)
deriving DecidableEq, Repr

/-- The component state `fetchProject` leaves behind. -/
structure FetchProjectState where
  project : Option Project
  tasks : List Task
  error : Option String
  loading : Bool
deriving DecidableEq, Repr

/-- ProjectDetails `fetchProject`: an ok response stores the project and
`data.tasks || []`; a non-ok response throws
`new Error(data.error || "Failed to fetch project.")`, whose message the
catch stores in `error` — a missing and an empty `error` field both fall
back to the default; a thrown error stores its message; the `finally`
always ends with `loading = false`. -/
def fetchProject (outcome : ProjectFetchOutcome) : FetchProjectState :=
  match outcome with
  | .ok d => ⟨some d.project, d.tasks.getD [], none, false⟩
  | .errResp e =>
    let msg := match e with
      | some s => if s = "" then "Failed to fetch project." else s
      | none => "Failed to fetch project."
    ⟨none, [], some msg, false⟩
  | .throwErr m => ⟨none, [], some m, false⟩

/-! ## Filter handlers (Projects.tsx lines 92-118) -/

/-- The query string, one value per parameter name (`URLSearchParams`
with at most one value per key, which is what the UI produces). -/
abbrev QueryParams : Type := String → Option String

/-- `params.set(k, v)` for the single-valued query string. -/
def paramsSet (p : QueryParams) (k v : String) : QueryParams :=
  fun k2 => if k2 = k then some v else p k2

/-- `params.delete(k)` for the single-valued query string. -/
def paramsDelete (p : QueryParams) (k : String) : QueryParams :=
  fun k2 => if k2 = k then none else p k2

/-- Projects.tsx `handleActiveFilterChange`, acting on a copy of the
current params: "all" deletes `active`, anything else sets it. -/
def handleActiveFilterChange (searchParams : QueryParams)
    (newActiveFilter : String) : QueryParams :=
  if newActiveFilter = "all" then paramsDelete searchParams "active"
  else paramsSet searchParams "active" newActiveFilter

/-- Projects.tsx `handleAreaFilterChange`: the empty option deletes
`area_id`, anything else sets it. -/
def handleAreaFilterChange (searchParams : QueryParams)
    (newAreaFilter : String) : QueryParams :=
  if newAreaFilter = "" then paramsDelete searchParams "area_id"
  else paramsSet searchParams "area_id" newAreaFilter

/-! ## `ProjectDetails.handleTaskUpdate` (Projects.tsx lines 436-451) -/

/-- What a run of `handleTaskUpdate` did: the `updateTask(id, task)` call
(if any) and the resulting local tasks list. -/
structure TaskUpdateResult where
  backendCall : Option (Nat × Task)
  tasks : List Task
deriving DecidableEq, Repr

/-- ProjectDetails `handleTaskUpdate`: an undefined id returns before any
call (`=== undefined`, so the id 0 is fine here); otherwise `updateTask`
is awaited and only when it resolves is the local list mapped, replacing
every task whose id equals the updated task's id; a rejection is caught
and the list left alone. -/
def handleTaskUpdate (tasks : List Task) (updatedTask : Task)
    (resolves : Bool) : TaskUpdateResult :=
  match updatedTask.id with
  | none => ⟨none, tasks⟩
  | some tid =>
    if resolves then
      ⟨some (tid, updatedTask),
        tasks.map (fun t => if t.id = some tid then updatedTask else t)⟩
    else ⟨some (tid, updatedTask), tasks⟩

/-! ## `ProjectModal.handleSubmit` (ProjectModal lines 90-94 and 122-136) -/

/-- What a submission of the modal form did: the project handed to
`onSave` and whether the modal closed afterwards. -/
structure SubmitResult where
  savedProject : Option Project
  closed : Bool
deriving DecidableEq, Repr

/-- ProjectModal `handleSubmit`: prevent the default, hand the form state
to `onSave` unchanged, close. -/
def ProjectModal_handleSubmit (formData : Project) : SubmitResult :=
  ⟨some formData, true⟩

/-- The name input of the modal carries the HTML `required` attribute
(it is the only required field of the form), so the browser fires the
form's submit event only when the name field is non-empty. -/
def nameInputRequired : Bool := true

/-- The browser-side constraint under which `handleSubmit` can run at
all: every required field — here the name — is non-empty. -/
def submitEventFires (formData : Project) : Prop :=
  nameInputRequired = true → formData.name ≠ ""

/-! ## Helper lemmas -/

theorem listIncludes_iff (pat s : List Char) :
    listIncludes pat s = true ↔ ∃ l r, s = l ++ pat ++ r := by
  induction s with
  | nil =>
      simp only [listIncludes, List.isPrefixOf_iff_prefix]
      constructor
      · intro h
        exact ⟨[], [], by simpa using (List.prefix_nil.mp h)⟩
      · rintro ⟨l, r, h⟩
        have h2 : l = [] ∧ pat = [] ∧ r = [] := by
          simpa [List.append_eq_nil] using h.symm
        simp [h2.2.1]
  | cons c t ih =>
      simp only [listIncludes, Bool.or_eq_true, List.isPrefixOf_iff_prefix, ih]
      constructor
      · rintro (⟨r, hr⟩ | ⟨l, r, h⟩)
        · exact ⟨[], r, hr.symm⟩
        · exact ⟨c :: l, r, by simp [h]⟩
      · rintro ⟨l, r, h⟩
        cases l with
        | nil => exact Or.inl ⟨r, by simpa using h.symm⟩
        | cons a l =>
            right
            refine ⟨l, r, ?_⟩
            have := h
            simp only [List.cons_append] at this
            exact (List.cons.injEq _ _ _ _ ▸ this).2

theorem strIncludes_iff (s pat : String) :
    strIncludes s pat = true ↔ IsSubstring s pat := by
  simpa [strIncludes, IsSubstring] using listIncludes_iff pat.data s.data

/-! ## Claim theorems -/

/-- C1 counterexample: a project with id 0 that has one done task and
nothing else.  The claimed formula gives `round(1/1*100) = 100`, but the
code returns 0 because the guard `!projectId` is also true at the id 0. -/
theorem getCompletionPercentage_zero_id_counterexample :
    getCompletionPercentage (fun i => if i = 0 then some ⟨1, 0, 0⟩ else none)
        (some 0) = 0
    ∧ round ((1 : ℚ) / ((1 : ℚ) + 0 + 0) * 100) = 100 := by
  refine ⟨rfl, ?_⟩
  rw [round_eq]
  norm_num

/-- C1 (amended): for every nonzero project id whose counts are recorded,
the completion percentage is `round(done / (done + not_started +
in_progress) * 100)` when the total is nonzero and 0 when it is zero; an
undefined id, the id 0, and an id with no recorded counts all give 0. -/
theorem getCompletionPercentage_spec
    (taskStatusCounts : Nat → Option TaskStatusCounts) (n : Nat) :
    (∀ ts, taskStatusCounts (n + 1) = some ts →
      (ts.done + ts.not_started + ts.in_progress ≠ 0 →
        getCompletionPercentage taskStatusCounts (some (n + 1)) =
          round ((ts.done : ℚ) /
            ((ts.done : ℚ) + (ts.not_started : ℚ) + (ts.in_progress : ℚ)) * 100))
      ∧ (ts.done + ts.not_started + ts.in_progress = 0 →
        getCompletionPercentage taskStatusCounts (some (n + 1)) = 0))
    ∧ (taskStatusCounts (n + 1) = none →
        getCompletionPercentage taskStatusCounts (some (n + 1)) = 0)
    ∧ getCompletionPercentage taskStatusCounts none = 0
    ∧ getCompletionPercentage taskStatusCounts (some 0) = 0 := by
  refine ⟨fun ts hts => ⟨fun hne => ?_, fun hz => ?_⟩, fun hnone => ?_, rfl, rfl⟩
  · simp only [getCompletionPercentage, hts, Option.getD_some, if_neg hne]
    rw [round_eq, mathRound]
    congr 2
    push_cast
    ring
  · simp [getCompletionPercentage, hts, hz]
  · simp [getCompletionPercentage, hnone]

theorem getCompletionPercentage_spec_witness :
    getCompletionPercentage (fun i => if i = 1 then some ⟨1, 1, 0⟩ else none)
      (some 1) = 50 := by
  rw [((getCompletionPercentage_spec
      (fun i => if i = 1 then some ⟨1, 1, 0⟩ else none) 0).1 ⟨1, 1, 0⟩ rfl).1
      (by norm_num)]
  rw [round_eq]
  norm_num

/-- C2 counterexample: a project whose id is present but equal to 0.  The
claim says `updateProject(0, project)` is invoked; the code invokes
`createProject(project)` because `if (project.id)` is false at 0. -/
theorem handleSaveProject_zero_id_counterexample :
    (handleSaveProject ⟨some 0, "Zero", none, none, true, false⟩ true).op =
      SaveOp.createProject ⟨some 0, "Zero", none, none, true, false⟩
    ∧ (handleSaveProject ⟨some 0, "Zero", none, none, true, false⟩ true).op ≠
      SaveOp.updateProject 0 ⟨some 0, "Zero", none, none, true, false⟩ := by
  exact ⟨rfl, by decide⟩

/-- C2 (amended): exactly one backend operation is chosen —
`updateProject(project.id, project)` when the id is present and nonzero,
`createProject(project)` when it is absent or 0 — and the modal is closed
and the list refetched exactly when the awaited operation resolves. -/
theorem handleSaveProject_spec (project : Project) (resolves : Bool) :
    (∀ n, project.id = some (n + 1) →
        (handleSaveProject project resolves).op =
          SaveOp.updateProject (n + 1) project)
    ∧ ((project.id = none ∨ project.id = some 0) →
        (handleSaveProject project resolves).op = SaveOp.createProject project)
    ∧ (handleSaveProject project resolves).modalClosed = resolves
    ∧ (handleSaveProject project resolves).mutateCalled = resolves := by
  refine ⟨fun n hn => ?_, fun h => ?_, ?_, ?_⟩ <;>
    first
      | (cases resolves <;> simp [handleSaveProject, hn])
      | (rcases h with h | h <;> cases resolves <;> simp [handleSaveProject, h])
      | (cases resolves <;> simp [handleSaveProject])

theorem handleSaveProject_spec_witness :
    (handleSaveProject ⟨some 2, "P", none, none, true, false⟩ true).op =
      SaveOp.updateProject 2 ⟨some 2, "P", none, none, true, false⟩
    ∧ (handleSaveProject ⟨some 2, "P", none, none, true, false⟩ true).modalClosed
      = true :=
  ⟨(handleSaveProject_spec ⟨some 2, "P", none, none, true, false⟩ true).1 1 rfl,
    (handleSaveProject_spec ⟨some 2, "P", none, none, true, false⟩ true).2.2.1⟩

/-- C3 counterexample: the current project has the id 0, which is an id,
so the claim requires a request to be issued; the code issues none and
leaves the list unchanged, because `!project?.id` is also true at 0. -/
theorem handleTaskCreate_zero_id_counterexample :
    handleTaskCreate (some ⟨some 0, "Zero", none, none, true, false⟩) []
        (42 : Nat) (.ok ⟨some 7, "t", "not_started"⟩) =
      ⟨none, []⟩ := by
  decide

/-- C3 (amended): when there is no current project, the project has no
id, or its id is 0, no request is issued and the list is unchanged;
for a nonzero id the issued body is the task data extended with that
`project_id`, an ok response appends the returned task at the end, and an
error response or network failure leaves the list unchanged. -/
theorem handleTaskCreate_spec {α : Type} (project : Option Project)
    (tasks : List Task) (taskData : α) (response : TaskFetchOutcome) :
    ((project.bind Project.id = none ∨ project.bind Project.id = some 0) →
        handleTaskCreate project tasks taskData response = ⟨none, tasks⟩)
    ∧ (∀ n, project.bind Project.id = some (n + 1) →
        (handleTaskCreate project tasks taskData response).request =
          some (taskData, n + 1)
        ∧ (∀ t, response = .ok t →
            (handleTaskCreate project tasks taskData response).tasks =
              tasks ++ [t])
        ∧ (∀ e, response = .errResp e →
            (handleTaskCreate project tasks taskData response).tasks = tasks)
        ∧ (response = .networkFailure →
            (handleTaskCreate project tasks taskData response).tasks = tasks)) := by
  constructor
  · rintro (h | h) <;> simp [handleTaskCreate, h]
  · rintro n hn
    cases response <;>
      simp [handleTaskCreate, hn]

theorem handleTaskCreate_spec_witness :
    (handleTaskCreate (some ⟨some 3, "P", none, none, true, false⟩)
        [⟨some 1, "a", "done"⟩] "payload"
        (.ok ⟨some 9, "b", "not_started"⟩)).request = some ("payload", 3)
    ∧ (handleTaskCreate (some ⟨some 3, "P", none, none, true, false⟩)
        [⟨some 1, "a", "done"⟩] "payload"
        (.ok ⟨some 9, "b", "not_started"⟩)).tasks =
      [⟨some 1, "a", "done"⟩, ⟨some 9, "b", "not_started"⟩] := by
  have h := (handleTaskCreate_spec (some ⟨some 3, "P", none, none, true, false⟩)
    [⟨some 1, "a", "done"⟩] "payload" (.ok ⟨some 9, "b", "not_started"⟩)).2 2 rfl
  exact ⟨h.1, h.2.1 _ rfl⟩

/-- C4: `onTaskCreate` is invoked exactly when the key is Enter and the
trimmed name is non-empty, always with the trimmed name; on success the
input is cleared and the success toast shown, on rejection the error
toast is shown and the input unchanged; otherwise nothing happens and no
toast is shown. -/
theorem handleKeyDown_spec (key taskName : String) (createSucceeds : Bool) :
    ((handleKeyDown key taskName createSucceeds).createCall.isSome = true ↔
        (key = "Enter" ∧ jsTrim taskName ≠ ""))
    ∧ (∀ s, (handleKeyDown key taskName createSucceeds).createCall = some s →
        s = jsTrim taskName)
    ∧ (key = "Enter" → jsTrim taskName ≠ "" → createSucceeds = true →
        handleKeyDown key taskName createSucceeds =
          ⟨some (jsTrim taskName), "",
            some (.success "Task created successfully!")⟩)
    ∧ (key = "Enter" → jsTrim taskName ≠ "" → createSucceeds = false →
        handleKeyDown key taskName createSucceeds =
          ⟨some (jsTrim taskName), taskName,
            some (.error "Failed to create task.")⟩)
    ∧ (¬(key = "Enter" ∧ jsTrim taskName ≠ "") →
        handleKeyDown key taskName createSucceeds = ⟨none, taskName, none⟩) := by
  by_cases h : key = "Enter" ∧ jsTrim taskName ≠ ""
  · cases createSucceeds <;> simp_all [handleKeyDown]
  · cases createSucceeds <;>
      · rw [handleKeyDown, if_neg h]
        exact ⟨by simp [h], by simp, fun h1 h2 _ => absurd ⟨h1, h2⟩ h,
          fun h1 h2 _ => absurd ⟨h1, h2⟩ h, fun _ => rfl⟩

theorem handleKeyDown_spec_witness :
    handleKeyDown "Enter" " buy milk " true =
      ⟨some (jsTrim " buy milk "), "",
        some (.success "Task created successfully!")⟩ :=
  (handleKeyDown_spec "Enter" " buy milk " true).2.2.1 rfl (by decide) rfl

/-- C5 counterexample: a non-ok response whose body has the `error` field
present but equal to `""`.  The claim says the shown message is that
field; the code falls back to the default because `data.error || ...`
treats the empty string as absent. -/
theorem fetchProject_empty_error_counterexample :
    (fetchProject (.errResp (some ""))).error = some "Failed to fetch project."
    ∧ (fetchProject (.errResp (some ""))).error ≠ some "" := by
  exact ⟨rfl, by decide⟩

/-- C5 (amended): for a non-ok response the stored inline error message
is the body's `error` field when it is present and non-empty, and
"Failed to fetch project." when it is absent or empty; and in every
outcome — ok, error response, or thrown error — `loading` is false after
the call settles. -/
theorem fetchProject_spec (outcome : ProjectFetchOutcome) :
    (∀ e, outcome = .errResp (some e) → e ≠ "" →
        (fetchProject outcome).error = some e)
    ∧ ((outcome = .errResp none ∨ outcome = .errResp (some "")) →
        (fetchProject outcome).error = some "Failed to fetch project.")
    ∧ (fetchProject outcome).loading = false := by
  refine ⟨fun e he hne => ?_, fun h => ?_, ?_⟩
  · subst he
    simp [fetchProject, hne]
  · rcases h with h | h <;> subst h <;> rfl
  · cases outcome <;> rfl

theorem fetchProject_spec_witness :
    (fetchProject (.errResp (some "Project not found"))).error =
      some "Project not found"
    ∧ (fetchProject (.errResp (some "Project not found"))).loading = false :=
  ⟨(fetchProject_spec (.errResp (some "Project not found"))).1
      "Project not found" rfl (by decide),
    (fetchProject_spec (.errResp (some "Project not found"))).2.2⟩

/-- C6: a status change only touches the `active` parameter ("all"
deletes it, any other value is stored), an area change only touches
`area_id` (the empty option deletes it, any other value is stored), and
every other parameter keeps its previous value. -/
theorem filterChange_spec (searchParams : QueryParams) (v : String) :
    (handleActiveFilterChange searchParams v "active" =
        if v = "all" then none else some v)
    ∧ (∀ k, k ≠ "active" →
        handleActiveFilterChange searchParams v k = searchParams k)
    ∧ (handleAreaFilterChange searchParams v "area_id" =
        if v = "" then none else some v)
    ∧ (∀ k, k ≠ "area_id" →
        handleAreaFilterChange searchParams v k = searchParams k) := by
  refine ⟨?_, fun k hk => ?_, ?_, fun k hk => ?_⟩ <;>
    by_cases h : v = "all" <;>
      by_cases h2 : v = "" <;>
        simp_all [handleActiveFilterChange, handleAreaFilterChange,
          paramsSet, paramsDelete]

theorem filterChange_spec_witness :
    handleActiveFilterChange (fun _ => none) "true" "active" = some "true"
    ∧ handleActiveFilterChange (fun _ => none) "true" "area_id" = none := by
  constructor
  · rw [(filterChange_spec (fun _ => none) "true").1]
    decide
  · exact (filterChange_spec (fun _ => none) "true").2.1 "area_id" (by decide)

/-- C7 counterexample: the backend call rejects.  The claim requires the
task with the matching id to be replaced regardless, but the code reaches
`setTasks` only after the await, so the old task stays. -/
theorem handleTaskUpdate_reject_counterexample :
    (handleTaskUpdate [⟨some 1, "old", "not_started"⟩]
        ⟨some 1, "new", "done"⟩ false).tasks = [⟨some 1, "old", "not_started"⟩]
    ∧ (⟨some 1, "old", "not_started"⟩ : Task) ≠ ⟨some 1, "new", "done"⟩ := by
  exact ⟨rfl, by decide⟩

/-- C7 (amended): an undefined id means no backend call and an unchanged
list; with a defined id `updateTask(id, task)` is called, and when it
resolves the resulting list has the same length and order with every task
of the matching id replaced by the updated task and all others unchanged,
while a rejection leaves the list unchanged. -/
theorem handleTaskUpdate_spec (tasks : List Task) (updatedTask : Task)
    (resolves : Bool) :
    (updatedTask.id = none →
        handleTaskUpdate tasks updatedTask resolves = ⟨none, tasks⟩)
    ∧ (∀ tid, updatedTask.id = some tid →
        (handleTaskUpdate tasks updatedTask resolves).backendCall =
          some (tid, updatedTask)
        ∧ (resolves = false →
            (handleTaskUpdate tasks updatedTask resolves).tasks = tasks)
        ∧ (resolves = true →
            (handleTaskUpdate tasks updatedTask resolves).tasks.length =
              tasks.length
            ∧ ∀ i (h : i < tasks.length),
                (tasks[i].id = updatedTask.id →
                  (handleTaskUpdate tasks updatedTask resolves).tasks[i]? =
                    some updatedTask)
                ∧ (tasks[i].id ≠ updatedTask.id →
                  (handleTaskUpdate tasks updatedTask resolves).tasks[i]? =
                    some tasks[i]))) := by
  constructor
  · intro h
    simp [handleTaskUpdate, h]
  · intro tid htid
    cases resolves with
    | false => simp [handleTaskUpdate, htid]
    | true =>
        refine ⟨by simp [handleTaskUpdate, htid], by simp, fun _ => ?_⟩
        constructor
        · simp [handleTaskUpdate, htid]
        · intro i h
          have hi : (handleTaskUpdate tasks updatedTask true).tasks[i]? =
              some (if tasks[i].id = some tid then updatedTask else tasks[i]) := by
            simp [handleTaskUpdate, htid, List.getElem?_map,
              List.getElem?_eq_getElem h]
          constructor
          · intro hid
            rw [hi, if_pos (htid ▸ hid)]
          · intro hid
            rw [hi, if_neg (fun he => hid (htid ▸ he))]

theorem handleTaskUpdate_spec_witness :
    (handleTaskUpdate [⟨some 1, "old", "not_started"⟩]
        ⟨some 1, "new", "done"⟩ true).tasks[0]? = some ⟨some 1, "new", "done"⟩ := by
  have h := (((handleTaskUpdate_spec [⟨some 1, "old", "not_started"⟩]
    ⟨some 1, "new", "done"⟩ true).2 1 rfl).2.2 rfl).2 0 (by decide)
  exact h.1 rfl

/-- C8: every project the modal hands to `onSave` on a form submission
has a non-empty name — `handleSubmit` forwards the form state unchanged,
and the `required` name input keeps the submit event from firing while
the name is empty. -/
theorem projectModal_saves_nonempty_name (formData : Project)
    (hfires : submitEventFires formData) :
    ∀ p, (ProjectModal_handleSubmit formData).savedProject = some p →
      p.name ≠ "" := by
  intro p hp
  have hpd : formData = p := by
    simpa [ProjectModal_handleSubmit] using hp
  exact hpd ▸ hfires rfl

theorem projectModal_saves_nonempty_name_witness :
    (Project.mk none "My project" none none true false).name ≠ "" :=
  projectModal_saves_nonempty_name ⟨none, "My project", none, none, true, false⟩
    (fun _ => by decide) ⟨none, "My project", none, none, true, false⟩ rfl

/-- C9: when the name, trimmed and split on single spaces, has exactly one
non-empty word, `getProjectInitials` returns the entire original untrimmed
name uppercased; with two or more words it returns the concatenation of the
uppercased first character of each word. -/
theorem getProjectInitials_cases (name : String) :
    ((projectWords name).length = 1 →
        getProjectInitials name = jsToUpper name)
    ∧ (2 ≤ (projectWords name).length →
        getProjectInitials name =
          ⟨((projectWords name).map (fun w => (w.take 1).map Char.toUpper)).flatten⟩) := by
  constructor
  · intro h
    simp [getProjectInitials, h]
  · intro h
    have hne : ¬ (projectWords name).length = 1 := by omega
    simp [getProjectInitials, hne]

theorem getProjectInitials_cases_witness :
    (2 ≤ (projectWords "task management app").length ∧
      getProjectInitials "task management app" = "TMA")
    ∧ ((projectWords " tududi ").length = 1 ∧
      getProjectInitials " tududi " = " TUDUDI ") := by
  refine ⟨⟨by decide, ?_⟩, ⟨by decide, ?_⟩⟩
  · rw [(getProjectInitials_cases "task management app").2 (by decide)]
    decide
  · rw [(getProjectInitials_cases " tududi ").1 (by decide)]
    decide

/-- C10: the filtered project list holds exactly the projects whose
lowercased name contains the lowercased query as a substring, in their
original order, and the empty query keeps the whole list. -/
theorem filteredProjects_spec (projects : List Project) (searchQuery : String) :
    (∀ p, p ∈ filteredProjects projects searchQuery ↔
        p ∈ projects ∧ IsSubstring (jsToLower p.name) (jsToLower searchQuery))
    ∧ (filteredProjects projects searchQuery).Sublist projects
    ∧ (searchQuery = "" → filteredProjects projects searchQuery = projects) := by
  refine ⟨fun p => ?_, List.filter_sublist _, fun h => ?_⟩
  · simp [filteredProjects, List.mem_filter, strIncludes_iff]
  · subst h
    rw [filteredProjects, List.filter_eq_self]
    intro p hp
    rw [strIncludes_iff]
    exact ⟨[], (jsToLower p.name).data, by simp [jsToLower]⟩

theorem filteredProjects_spec_witness :
    filteredProjects [⟨some 1, "Alpha", none, none, true, false⟩] "" =
      [⟨some 1, "Alpha", none, none, true, false⟩] :=
  (filteredProjects_spec [⟨some 1, "Alpha", none, none, true, false⟩] "").2.2 rfl

end Tududi
